import Mathlib

/-!
Verification development for the React-Todolist backend (TypeScript).

The backend core is shallowly embedded in Lean:

* `Todo` and its mutation methods mirror `src/backend/src/models/Todo.ts`.
* `TodoRepository.findAll`, `findById`, `create`, `bulkCreate`, `count` and
  `getStats` mirror `src/backend/src/repositories/TodoRepository.ts`; the
  SQLite table is a `List DbRow`, a row being the image of `Todo.toDatabase`.
* `TodoService.getAllTodos` and `TodoService.bulkCreate` mirror
  `src/backend/src/services/TodoService.ts`.

Modelling conventions:

* JavaScript `Date` values are millisecond timestamps (`Nat`).  Converting a
  date to an ISO-8601 string and back (`toISOString` / `new Date(iso)`) is
  the identity on the timestamp, and lexicographic comparison of the stored
  ISO strings agrees with numeric comparison of the timestamps, so date
  columns are kept as `Option Nat` and compared numerically.
* The `tags` column stores `JSON.stringify(tags)`; `JSON.parse` of that text
  is the identity on the string list, so the column is kept structured as a
  `List String`, and the SQL clause that does inspect the raw JSON text
  (`tags LIKE '%"t"%'`) re-serialises it with `jsonEncTags` first.
* Each operation that reads the wall clock (`new Date()`) or draws a fresh
  UUID receives the value as an explicit parameter.
* Inserts enforce the table constraints of migration 001 (`rowCheckOk` and
  the `id` PRIMARY KEY); in particular the CHECKs
  `due_date IS datetime(due_date)` and `completed_at IS datetime(...)`
  never accept the ISO strings `toDatabase` writes, so an INSERT carrying
  a non-null due date or completion date throws.
* JavaScript integer arithmetic on counts and pages is exact below `2^53`
  and is embedded as exact integer arithmetic; the one place where genuine
  binary64 rounding is observable at realistic sizes, the completion-rate
  computation `Math.round((completed / total) * 100)`, is embedded with an
  exact model of IEEE-754 round-to-nearest-even (`fl`).
-/

/-! ## Characters and strings -/

/-- Whitespace for the purposes of JavaScript `String.prototype.trim`. -/
def jsWhite (c : Char) : Bool :=
  c.toNat = 0x09 || c.toNat = 0x0A || c.toNat = 0x0B || c.toNat = 0x0C ||
  c.toNat = 0x0D || c.toNat = 0x20 || c.toNat = 0xA0 || c.toNat = 0x1680 ||
  (0x2000 ≤ c.toNat && c.toNat ≤ 0x200A) || c.toNat = 0x2028 ||
  c.toNat = 0x2029 || c.toNat = 0x202F || c.toNat = 0x205F ||
  c.toNat = 0x3000 || c.toNat = 0xFEFF

/-- Strip `jsWhite` characters from both ends of a character list. -/
def trimL (l : List Char) : List Char :=
  ((l.dropWhile jsWhite).reverse.dropWhile jsWhite).reverse

/-- Model of JavaScript `s.trim()` (structural, so that it evaluates in the
kernel; Lean's own `String.trim` is iterator-based). -/
def jsTrim (s : String) : String :=
  ⟨trimL s.data⟩

/-- ASCII lower-casing, the case folding used by SQLite `LIKE`. -/
def lowerC (c : Char) : Char :=
  if 'A' ≤ c && c ≤ 'Z' then Char.ofNat (c.toNat + 32) else c

/-- Character class of the title regex `/^[a-zA-ZÀ-ÿ0-9 \-_'.,!?]+$/` in
`TodoService.validateCreateTodoDto`. -/
def allowedTitleChar (c : Char) : Bool :=
  ('a' ≤ c && c ≤ 'z') || ('A' ≤ c && c ≤ 'Z') || ('0' ≤ c && c ≤ '9') ||
  (0xC0 ≤ c.toNat && c.toNat ≤ 0xFF) ||
  c = ' ' || c = '-' || c = '_' || c = '\'' || c = '.' || c = ',' ||
  c = '!' || c = '?'

/-- Lexicographic comparison of character lists by code point; this is how
SQLite orders `TEXT` columns (binary collation on UTF-8 agrees with code
point order). -/
def lexLe : List Char → List Char → Bool
  | [], _ => true
  | _ :: _, [] => false
  | a :: as, b :: bs =>
    if a.toNat < b.toNat then true
    else if b.toNat < a.toNat then false
    else lexLe as bs

/-- Longhand Boolean prefix test on character lists. -/
def isPrefixL : List Char → List Char → Bool
  | [], _ => true
  | _ :: _, [] => false
  | a :: as, b :: bs => a == b && isPrefixL as bs

/-- Longhand Boolean contiguous-sublist test on character lists. -/
def isSubL : List Char → List Char → Bool
  | s, [] => s.isEmpty
  | s, t@(_ :: t') => isPrefixL s t || isSubL s t'

/-- One step bound of fuel is spent per call: SQLite `LIKE` matching, with
`%` matching any run of characters, `_` matching exactly one character, and
ordinary characters compared after ASCII lower-casing.  The fuel argument
makes the recursion structural so the kernel can evaluate it; `likeMatch`
below supplies sufficient fuel. -/
def likeM : Nat → List Char → List Char → Bool
  | 0, _, _ => false
  | f + 1, p, t =>
    match p, t with
    | [], [] => true
    | [], _ :: _ => false
    | a :: p', t =>
      if a = '%' then
        likeM f p' t ||
          (match t with
           | [] => false
           | _ :: t' => likeM f (a :: p') t')
      else
        match t with
        | [] => false
        | c :: t' =>
          if a = '_' then likeM f p' t'
          else (lowerC a == lowerC c) && likeM f p' t'

/-- SQLite `text LIKE pattern` (default, case-insensitive ASCII). -/
def likeMatch (p t : List Char) : Bool :=
  likeM (p.length + t.length + 1) p t

/-- The pattern `'%' + s + '%'` built by `TodoRepository.findAll` for the
search filter. -/
def wrapPat (s : List Char) : List Char :=
  '%' :: (s ++ ['%'])

/-- Hexadecimal digit characters for JSON control-character escapes. -/
def hexDigit (n : Nat) : Char :=
  if n < 10 then Char.ofNat (48 + n) else Char.ofNat (87 + n)

/-- JSON escaping of one character, as done by `JSON.stringify`. -/
def jsonEscChar (c : Char) : List Char :=
  if c = '"' then ['\\', '"']
  else if c = '\\' then ['\\', '\\']
  else if c = '\x08' then ['\\', 'b']
  else if c = '\x09' then ['\\', 't']
  else if c = '\x0A' then ['\\', 'n']
  else if c = '\x0C' then ['\\', 'f']
  else if c = '\x0D' then ['\\', 'r']
  else if c.toNat < 32 then
    ['\\', 'u', '0', '0', hexDigit (c.toNat / 16), hexDigit (c.toNat % 16)]
  else [c]

/-- JSON encoding of one string literal. -/
def jsonEscStr (s : String) : List Char :=
  '"' :: (s.data.flatMap jsonEscChar ++ ['"'])

/-- Comma-separated JSON literals. -/
def jsonEncItems : List String → List Char
  | [] => []
  | [s] => jsonEscStr s
  | s :: rest => jsonEscStr s ++ ',' :: jsonEncItems rest

/-- `JSON.stringify` of a string array: the text stored in the `tags`
column. -/
def jsonEncTags (l : List String) : List Char :=
  '[' :: (jsonEncItems l ++ [']'])

/-- Decimal digits of a natural number (fuel-structural so the kernel can
evaluate it; the fuel in `natToString` always suffices). -/
def natDigits : Nat → Nat → List Char
  | 0, _ => []
  | f + 1, n =>
    if n < 10 then [Char.ofNat (48 + n)]
    else natDigits f (n / 10) ++ [Char.ofNat (48 + n % 10)]

/-- Decimal rendering of a natural number, as used by JavaScript template
interpolation of an index into an error message. -/
def natToString (n : Nat) : String :=
  ⟨natDigits (n + 1) n⟩

/-! ## Enumerations (`src/backend/src/types/index.ts`) -/

/-- Priority levels (enum `TodoPriority`). -/
inductive TodoPriority where
  | low
  | medium
  | high
deriving DecidableEq

/-- String value of a priority, as stored in the database. -/
def prioStr : TodoPriority → String
  | .low => "low"
  | .medium => "medium"
  | .high => "high"

/-- Reading a priority column back (`raw.priority as TodoPriority` is an
unchecked cast in the source; every committed row satisfies the table CHECK
constraint `priority IN ('low','medium','high')`, and on those values this
decode inverts `prioStr`). -/
def strToPrio (s : String) : TodoPriority :=
  if s = "low" then .low else if s = "high" then .high else .medium

/-- Priority strings permitted by the table CHECK constraint of migration
001 (`priority IN ('low','medium','high')`). -/
def validPrioStr (s : String) : Bool :=
  s == "low" || s == "medium" || s == "high"

/-- Completion-status filter (enum `TodoFilter`). -/
inductive TodoFilter where
  | all
  | active
  | completed
deriving DecidableEq

/-- Sortable fields (enum `TodoSortField`). -/
inductive TodoSortField where
  | createdAt
  | updatedAt
  | title
  | priority
  | dueDate
deriving DecidableEq

/-- Sort direction (enum `SortOrder`). -/
inductive SortOrder where
  | asc
  | desc
deriving DecidableEq

/-! ## Records -/

/-- The domain entity (interface `Todo` / class `Todo`).  Timestamps are
milliseconds; `description`, `dueDate` and `completedAt` are optional. -/
structure Todo where
  id : String
  title : String
  description : Option String
  completed : Bool
  priority : TodoPriority
  dueDate : Option Nat
  tags : List String
  createdAt : Nat
  updatedAt : Nat
  completedAt : Option Nat
deriving DecidableEq

/-- A row of the `todos` table, the image of `Todo.toDatabase`: `completed`
is the 0/1 integer column, text dates are kept as their timestamp values,
and the JSON `tags` column is kept structured (see the header notes). -/
structure DbRow where
  id : String
  title : String
  description : Option String
  completed : Nat
  priority : String
  due_date : Option Nat
  tags : List String
  created_at : Nat
  updated_at : Nat
  completed_at : Option Nat
deriving DecidableEq

/-- Creation payload (`CreateTodoDto`). -/
structure CreateTodoDto where
  title : String
  description : Option String := none
  priority : Option TodoPriority := none
  dueDate : Option Nat := none
  tags : Option (List String) := none
deriving DecidableEq

/-- Partial-update payload (`UpdateTodoDto`); `none` means the field is
absent from the PATCH body. -/
structure UpdateTodoDto where
  title : Option String := none
  description : Option String := none
  completed : Option Bool := none
  priority : Option TodoPriority := none
  dueDate : Option Nat := none
  tags : Option (List String) := none
deriving DecidableEq

/-- Query parameters (`TodoQueryParams`); `page` and `limit` are integers so
that the zero and negative values reachable through the service layer are
representable. -/
structure QueryParams where
  filter : Option TodoFilter := none
  sortBy : Option TodoSortField := none
  sortOrder : Option SortOrder := none
  page : Option Int := none
  limit : Option Int := none
  search : Option String := none
  priority : Option TodoPriority := none
  tags : Option (List String) := none

/-- Pagination metadata (`PaginationMeta`). -/
structure PaginationMeta where
  currentPage : Int
  totalPages : Int
  totalItems : Nat
  itemsPerPage : Int
  hasNextPage : Bool
  hasPreviousPage : Bool

/-- Paginated list result (`PaginatedResponse<Todo>`). -/
structure PaginatedResult where
  data : List Todo
  meta : PaginationMeta

/-- Aggregate statistics (`TodoStats`). -/
structure TodoStats where
  total : Nat
  completed : Nat
  active : Nat
  overdue : Nat
  byPriorityLow : Nat
  byPriorityMedium : Nat
  byPriorityHigh : Nat
  completionRate : Int

/-- Errors thrown by the service layer (`utils/errors`).  A validation
error records its message and, when the `details` object carries an `index`
key, that index. -/
inductive SvcError where
  | validation (message : String) (index : Option Nat)
  | badRequest (message : String)
  | notFound (id : String)
  | storage (message : String)
deriving DecidableEq

/-! ## The entity model (`models/Todo.ts`) -/

/-- `Todo.create`: factory for a new entity.  The two `new Date()` calls of
the source happen inside one factory invocation and are modelled as a single
instant `now`; the fresh UUID is the parameter `id`. -/
def Todo.create (dto : CreateTodoDto) (id : String) (now : Nat) : Todo :=
  { id := id
    title := dto.title
    description := dto.description
    completed := false
    priority := dto.priority.getD .medium
    dueDate := dto.dueDate
    tags := dto.tags.getD []
    createdAt := now
    updatedAt := now
    completedAt := none }

/-- `todo.toggle()`: flip `completed`, stamping or clearing `completedAt`
from the post-flip value. -/
def Todo.toggle (t : Todo) (now : Nat) : Todo :=
  { t with
    completed := !t.completed
    completedAt := if !t.completed then some now else none
    updatedAt := now }

/-- `todo.complete()`: idempotent completion. -/
def Todo.complete (t : Todo) (now : Nat) : Todo :=
  if t.completed then t
  else { t with completed := true, completedAt := some now, updatedAt := now }

/-- `todo.uncomplete()`: idempotent un-completion. -/
def Todo.uncomplete (t : Todo) (now : Nat) : Todo :=
  if !t.completed then t
  else { t with completed := false, completedAt := none, updatedAt := now }

/-- `todo.update(updates)`: PATCH semantics.  The source overwrites each
supplied plain field in sequence; the assignments are independent, so they
are combined into one record update here.  A supplied `completed` that
differs from the current value is routed through `complete`/`uncomplete`,
and `updatedAt` is always stamped at the end. -/
def Todo.update (t : Todo) (u : UpdateTodoDto) (now : Nat) : Todo :=
  let t5 : Todo :=
    { t with
      title := u.title.getD t.title
      description := match u.description with
        | some d => some d
        | none => t.description
      priority := u.priority.getD t.priority
      dueDate := match u.dueDate with
        | some d => some d
        | none => t.dueDate
      tags := u.tags.getD t.tags }
  let t6 : Todo :=
    match u.completed with
    | some c =>
      if c ≠ t5.completed then
        (if c then t5.complete now else t5.uncomplete now)
      else t5
    | none => t5
  { t6 with updatedAt := now }

/-- `todo.toDatabase()`: `description || null` collapses an empty string to
NULL; `completed` becomes 0/1; dates keep their timestamp value (ISO
serialisation is order- and value-faithful). -/
def Todo.toDatabase (t : Todo) : DbRow :=
  { id := t.id
    title := t.title
    description := match t.description with
      | some d => if d = "" then none else some d
      | none => none
    completed := if t.completed then 1 else 0
    priority := prioStr t.priority
    due_date := t.dueDate
    tags := t.tags
    created_at := t.createdAt
    updated_at := t.updatedAt
    completed_at := t.completedAt }

/-- `Todo.fromDatabase(raw)`: `raw.description || undefined` collapses an
empty string to absent; `Boolean(raw.completed)` reads the 0/1 column. -/
def Todo.fromDatabase (r : DbRow) : Todo :=
  { id := r.id
    title := r.title
    description := match r.description with
      | some d => if d = "" then none else some d
      | none => none
    completed := r.completed != 0
    priority := strToPrio r.priority
    dueDate := r.due_date
    tags := r.tags
    createdAt := r.created_at
    updatedAt := r.updated_at
    completedAt := r.completed_at }

/-! ## Sorting

The repository sorts through the storage engine (`ORDER BY`).  Any
comparison sort realises `ORDER BY`; a stable insertion sort is used here
because it is structurally recursive, hence evaluable by the kernel. -/

/-- Insert an element into a list, before the first element it is `le` to. -/
def insLe (le : α → α → Bool) (a : α) : List α → List α
  | [] => [a]
  | b :: bs => if le a b then a :: b :: bs else b :: insLe le a bs

/-- Insertion sort with Boolean comparison `le`. -/
def insSort (le : α → α → Bool) : List α → List α
  | [] => []
  | a :: as => insLe le a (insSort le as)

theorem length_insLe (le : α → α → Bool) (a : α) (l : List α) :
    (insLe le a l).length = l.length + 1 := by
  induction l with
  | nil => rfl
  | cons b bs ih =>
    by_cases h : le a b = true <;> simp [insLe, h, ih]

theorem length_insSort (le : α → α → Bool) (l : List α) :
    (insSort le l).length = l.length := by
  induction l with
  | nil => rfl
  | cons a as ih => simp [insSort, length_insLe, ih]

theorem mem_insLe (le : α → α → Bool) (a x : α) (l : List α) :
    x ∈ insLe le a l ↔ x = a ∨ x ∈ l := by
  induction l with
  | nil => simp [insLe]
  | cons b bs ih =>
    by_cases h : le a b = true
    · simp [insLe, h]
    · simp [insLe, h, ih]
      tauto

theorem mem_insSort (le : α → α → Bool) (x : α) (l : List α) :
    x ∈ insSort le l ↔ x ∈ l := by
  induction l with
  | nil => simp [insSort]
  | cons a as ih => simp [insSort, mem_insLe, ih]

theorem pairwise_insLe (le : α → α → Bool)
    (htot : ∀ a b, le a b = true ∨ le b a = true)
    (htrans : ∀ a b c, le a b = true → le b c = true → le a c = true)
    (a : α) (l : List α) (h : l.Pairwise (fun x y => le x y = true)) :
    (insLe le a l).Pairwise (fun x y => le x y = true) := by
  induction l with
  | nil => simp [insLe]
  | cons b bs ih =>
    rcases List.pairwise_cons.mp h with ⟨hb, hbs⟩
    by_cases hab : le a b = true
    · simp only [insLe, hab, if_true]
      refine List.pairwise_cons.mpr ⟨?_, h⟩
      intro y hy
      rcases List.mem_cons.mp hy with hy | hy
      · exact hy ▸ hab
      · exact htrans a b y hab (hb y hy)
    · have hba : le b a = true := (htot a b).resolve_left hab
      simp only [insLe, hab, if_false]
      refine List.pairwise_cons.mpr ⟨?_, ih hbs⟩
      intro y hy
      rcases (mem_insLe le a y bs).mp hy with hy | hy
      · exact hy ▸ hba
      · exact hb y hy

theorem pairwise_insSort (le : α → α → Bool)
    (htot : ∀ a b, le a b = true ∨ le b a = true)
    (htrans : ∀ a b c, le a b = true → le b c = true → le a c = true)
    (l : List α) :
    (insSort le l).Pairwise (fun x y => le x y = true) := by
  induction l with
  | nil => simp [insSort]
  | cons a as ih => exact pairwise_insLe le htot htrans a (insSort le as) ih

/-! ## The repository (`repositories/TodoRepository.ts`) -/

namespace TodoRepository

/-- Search clause of `findAll`: `title LIKE ? OR description LIKE ?` with
pattern `'%' + search.trim() + '%'`.  A NULL `description` makes its LIKE
evaluate to NULL, which is falsy under SQL `OR`. -/
def searchCond (s : String) (r : DbRow) : Bool :=
  likeMatch (wrapPat (jsTrim s).data) r.title.data ||
    (match r.description with
     | some d => likeMatch (wrapPat (jsTrim s).data) d.data
     | none => false)

/-- Tags clause of `findAll`: for each requested tag,
`json_array_length(tags) > 0 AND tags LIKE '%"tag"%'`, joined with OR; the
LIKE runs over the JSON text of the column. -/
def tagsCond (want : List String) (r : DbRow) : Bool :=
  want.any fun tag =>
    decide (0 < r.tags.length) &&
      likeMatch ('%' :: '"' :: (tag.data ++ ['"', '%'])) (jsonEncTags r.tags)

/-- The WHERE clause assembled by `findAll` (status AND priority AND search
AND tags, each only when supplied). -/
def matchesQuery (filt : TodoFilter) (prio : Option TodoPriority)
    (search : Option String) (tags : Option (List String)) (r : DbRow) :
    Bool :=
  (match filt with
   | .all => true
   | .active => r.completed == 0
   | .completed => r.completed == 1) &&
  (match prio with
   | some pr => r.priority == prioStr pr
   | none => true) &&
  (match search with
   | some s => if 0 < (jsTrim s).length then searchCond s r else true
   | none => true) &&
  (match tags with
   | some l => if 0 < l.length then tagsCond l r else true
   | none => true)

/-- `CASE priority WHEN 'high' THEN 1 WHEN 'medium' THEN 2 WHEN 'low' THEN 3
END`; a string outside the enum yields NULL, which SQLite orders before
every number, modelled as rank 0. -/
def prioRankStr (s : String) : Nat :=
  if s = "high" then 1 else if s = "medium" then 2 else if s = "low" then 3
  else 0

/-- Ordering on one NULLable date column: SQLite puts NULL first in
ascending order. -/
def optNatLe : Option Nat → Option Nat → Bool
  | none, _ => true
  | some _, none => false
  | some a, some b => decide (a ≤ b)

/-- Ascending comparison for the `ORDER BY` key of each sort field. -/
def keyLe (sb : TodoSortField) (r1 r2 : DbRow) : Bool :=
  match sb with
  | .createdAt => decide (r1.created_at ≤ r2.created_at)
  | .updatedAt => decide (r1.updated_at ≤ r2.updated_at)
  | .title => lexLe r1.title.data r2.title.data
  | .priority => decide (prioRankStr r1.priority ≤ prioRankStr r2.priority)
  | .dueDate => optNatLe r1.due_date r2.due_date

/-- Row comparison used by the sort: the key ascending, or flipped for
`DESC`. -/
def rowLe (sb : TodoSortField) (asc : Bool) (r1 r2 : DbRow) : Bool :=
  if asc then keyLe sb r1 r2 else keyLe sb r2 r1

/-- `LIMIT ? OFFSET ?` with SQLite semantics: a negative LIMIT means
unbounded, a negative OFFSET behaves like zero. -/
def applyPage (lim off : Int) (l : List α) : List α :=
  let l1 := if off < 0 then l else l.drop off.toNat
  if lim < 0 then l1 else l1.take lim.toNat

/-- `Math.ceil(totalItems / limit)` on exact values; for `limit = 0` the
JavaScript result is Infinity (or NaN for 0/0), which has no integer
counterpart — division by zero yields 0 here.  No claim reaches
`limit = 0` metadata. -/
def jsCeil (q : ℚ) : ℤ := ⌈q⌉

/-- `TodoRepository.findAll`: filter, count, sort, paginate, and build the
pagination metadata, exactly in the order of the source. -/
def findAll (p : QueryParams) (db : List DbRow) : PaginatedResult :=
  let filt := p.filter.getD .all
  let sortBy := p.sortBy.getD .createdAt
  let sortOrder := p.sortOrder.getD .desc
  let page := p.page.getD 1
  let limit := p.limit.getD 50
  let matched := db.filter (matchesQuery filt p.priority p.search p.tags)
  let totalItems := matched.length
  let sorted := insSort (rowLe sortBy (sortOrder == SortOrder.asc)) matched
  let rows := applyPage limit ((page - 1) * limit) sorted
  let totalPages := jsCeil ((totalItems : ℚ) / (limit : ℚ))
  { data := rows.map Todo.fromDatabase
    meta :=
      { currentPage := page
        totalPages := totalPages
        totalItems := totalItems
        itemsPerPage := limit
        hasNextPage := decide (page < totalPages)
        hasPreviousPage := decide (1 < page) } }

/-- `TodoRepository.findById`: `SELECT * FROM todos WHERE id = ?` takes the
first matching row, then `Todo.fromDatabase(row).toJSON()`. -/
def findById (id : String) (db : List DbRow) : Option Todo :=
  (db.find? fun r => r.id == id).map Todo.fromDatabase

/-- Table constraints of migration 001 on one row image: the title and
description length CHECKs, `completed IN (0, 1)`,
`priority IN ('low','medium','high')`, and the date CHECKs
`due_date IS datetime(due_date)` and
`completed_at IS datetime(completed_at)`.  `datetime` normalizes its
argument to `YYYY-MM-DD HH:MM:SS`, while `toDatabase` always writes
`toISOString` values (`YYYY-MM-DDTHH:MM:SS.sssZ`), so the two date CHECKs
hold exactly when the column is NULL: an INSERT of a row with a non-null
due date (or completion date) always fails. -/
def rowCheckOk (r : DbRow) : Bool :=
  (3 ≤ r.title.length && r.title.length ≤ 100) &&
  (match r.description with
   | some d => decide (d.length ≤ 500)
   | none => true) &&
  (r.completed == 0 || r.completed == 1) &&
  validPrioStr r.priority &&
  r.due_date == none &&
  r.completed_at == none

/-- One `INSERT INTO todos` statement: better-sqlite3 throws a
`SqliteError` when the PRIMARY KEY on `id` or a table CHECK constraint is
violated; otherwise the row is appended. -/
def insertRow (db : List DbRow) (r : DbRow) : Except SvcError (List DbRow) :=
  if db.any fun r0 => r0.id == r.id then
    .error (.storage "SqliteError: UNIQUE constraint failed: todos.id")
  else if !(rowCheckOk r) then
    .error (.storage "SqliteError: CHECK constraint failed: todos")
  else .ok (db ++ [r])

/-- `TodoRepository.create`: INSERT the row image of the entity, returning
the entity and the new table state; a constraint violation propagates as a
storage error and persists nothing. -/
def create (t : Todo) (db : List DbRow) :
    Except SvcError (List DbRow × Todo) :=
  match insertRow db t.toDatabase with
  | .error e => .error e
  | .ok db' => .ok (db', t)

/-- Sequential inserts of one transaction. -/
def insertAll (db : List DbRow) : List Todo → Except SvcError (List DbRow)
  | [] => .ok db
  | t :: ts =>
    match insertRow db t.toDatabase with
    | .error e => .error e
    | .ok db' => insertAll db' ts

/-- `TodoRepository.bulkCreate`: one transaction inserting every row; the
first constraint violation aborts and rolls the whole batch back, leaving
the table in its pre-call state. -/
def bulkCreate (ts : List Todo) (db : List DbRow) :
    Except SvcError (List DbRow × List Todo) :=
  match insertAll db ts with
  | .error e => .error e
  | .ok db' => .ok (db', ts)

/-- `TodoRepository.count` with an optional status filter. -/
def count (filt : TodoFilter) (db : List DbRow) : Nat :=
  match filt with
  | .all => db.length
  | .active => (db.filter fun r => r.completed == 0).length
  | .completed => (db.filter fun r => r.completed == 1).length

end TodoRepository

/-! ## Binary64 rounding

`getStats` computes `Math.round((completed / total) * 100)` in JavaScript
doubles.  Both counts are exact in binary64, but the division and the
multiplication each round to 53 significant bits (round to nearest, ties to
even).  `fl` is that rounding on exact rationals; exponent range is ignored
(the values involved are far from overflow and subnormal thresholds), and
negative inputs (unreachable here) are returned unchanged. -/

/-- Round an exact rational to an integer, ties to even. -/
def rhe (q : ℚ) : ℤ :=
  if q - ⌊q⌋ < 1/2 then ⌊q⌋
  else if 1/2 < q - ⌊q⌋ then ⌊q⌋ + 1
  else if ⌊q⌋ % 2 = 0 then ⌊q⌋ else ⌊q⌋ + 1

/-- Round a positive rational to 53 significant binary digits, ties to
even: the value a binary64 operation returns when its exact result is `q`. -/
def fl (q : ℚ) : ℚ :=
  if q ≤ 0 then q
  else
    (rhe (q * (2 : ℚ) ^ ((52 : ℤ) - Int.log 2 q)) : ℚ) *
      (2 : ℚ) ^ (Int.log 2 q - 52)

/-- `Math.round` applied to the exact value of a double: round half toward
positive infinity. -/
def jsRound (q : ℚ) : ℤ := ⌊q + 1/2⌋

/-- `total > 0 ? Math.round((completed / total) * 100) : 0`, with each
double operation modelled by `fl`. -/
def jsCompletionRate (completed total : Nat) : ℤ :=
  if 0 < total then
    jsRound (fl (fl ((completed : ℚ) / (total : ℚ)) * 100))
  else 0

namespace TodoRepository

/-- `TodoRepository.getStats`: counts over the whole table, overdue rows
(`completed = 0 AND due_date IS NOT NULL AND datetime(due_date) <
datetime('now')`), the per-priority group counts (a priority absent from
the GROUP BY result keeps its initial 0), and the completion rate. -/
def getStats (db : List DbRow) (now : Nat) : TodoStats :=
  let total := count .all db
  let completed := count .completed db
  let active := count .active db
  let overdue :=
    (db.filter fun r =>
      r.completed == 0 &&
        (match r.due_date with
         | some d => decide (d < now)
         | none => false)).length
  { total := total
    completed := completed
    active := active
    overdue := overdue
    byPriorityLow := (db.filter fun r => r.priority == "low").length
    byPriorityMedium := (db.filter fun r => r.priority == "medium").length
    byPriorityHigh := (db.filter fun r => r.priority == "high").length
    completionRate := jsCompletionRate completed total }

end TodoRepository

/-! ## The service (`services/TodoService.ts`) -/

namespace TodoService

/-- `TodoService.validateCreateTodoDto`, with the checks in source order:
title present and non-blank, title length within 3–100, title character
class, description length, tags shape (each tag a non-blank string, at most
ten), due date parseable.  Dates are already timestamps in the model, so
the date check always passes.  JavaScript string length counts UTF-16
units while Lean counts code points; the two agree on every string the
character-class check accepts, and both paths reject the others. -/
def validateCreateTodoDto (dto : CreateTodoDto) : Except SvcError Unit :=
  if dto.title = "" || (jsTrim dto.title).length = 0 then
    .error (.validation "Le titre est obligatoire" none)
  else if dto.title.length < 3 then
    .error (.validation "Le titre doit contenir au moins 3 caractères" none)
  else if 100 < dto.title.length then
    .error (.validation "Le titre ne peut pas dépasser 100 caractères" none)
  else if !(dto.title.data.all allowedTitleChar) then
    .error (.validation "Le titre contient des caractères invalides. Seuls les lettres, chiffres et ponctuation basique sont autorisés" none)
  else if (match dto.description with
           | some d => decide (500 < d.length)
           | none => false) then
    .error (.validation "La description ne peut pas dépasser 500 caractères" none)
  else
    match dto.tags with
    | some l =>
      if 10 < l.length then
        .error (.validation "Maximum 10 tags par todo" none)
      else
        match l.findIdx? (fun tag => (jsTrim tag).length = 0) with
        | some i =>
          .error (.validation ("Tag invalide à l'index " ++ natToString i)
            (some i))
        | none => .ok ()
    | none => .ok ()

/-- First element of the batch failing `validateCreateTodoDto`, with its
index: the `forEach` in `TodoService.bulkCreate` throws at the first
failure. -/
def firstInvalid (k : Nat) : List CreateTodoDto → Option (Nat × SvcError)
  | [] => none
  | d :: ds =>
    match validateCreateTodoDto d with
    | .error e => some (k, e)
    | .ok _ => firstInvalid (k + 1) ds

/-- `TodoService.bulkCreate`: reject an empty batch, reject more than 100
elements, validate every element (wrapping the first failure with its
index), then build the entities (`idGen i` is the fresh UUID of element
`i`) and insert them in one transaction. -/
def bulkCreate (dtos : List CreateTodoDto) (idGen : Nat → String)
    (now : Nat) (db : List DbRow) :
    Except SvcError (List DbRow × List Todo) :=
  if dtos.length = 0 then
    .error (.validation "Le tableau de todos ne peut pas être vide" none)
  else if 100 < dtos.length then
    .error (.validation "Maximum 100 todos par requête en masse" none)
  else
    match firstInvalid 0 dtos with
    | some (i, _) =>
      .error (.validation
        ("Validation échouée pour le todo à l'index " ++ natToString i)
        (some i))
    | none =>
      let ts := (List.range dtos.length).zip dtos |>.map
        fun ik => Todo.create ik.2 (idGen ik.1) now
      TodoRepository.bulkCreate ts db

/-- Truthiness guard `params.page && params.page < 1` of `getAllTodos`:
a present value of 0 is falsy, so the branch only fires on a nonzero value
below 1. -/
def pageBad (o : Option Int) : Bool :=
  match o with
  | some v => v != 0 && decide (v < 1)
  | none => false

/-- Truthiness guard `params.limit && params.limit < 1`. -/
def limitLow (o : Option Int) : Bool :=
  match o with
  | some v => v != 0 && decide (v < 1)
  | none => false

/-- Truthiness guard `params.limit && params.limit > 100`. -/
def limitHigh (o : Option Int) : Bool :=
  match o with
  | some v => v != 0 && decide (100 < v)
  | none => false

/-- `TodoService.getAllTodos`: the three pagination guards in source order,
then delegation to the repository. -/
def getAllTodos (p : QueryParams) (db : List DbRow) :
    Except SvcError PaginatedResult :=
  if pageBad p.page then
    .error (.validation "Le numéro de page doit être >= 1" none)
  else if limitLow p.limit then
    .error (.validation "La limite doit être >= 1" none)
  else if limitHigh p.limit then
    .error (.validation "La limite ne peut pas dépasser 100" none)
  else
    .ok (TodoRepository.findAll p db)

end TodoService

/-! ## Specification-side definitions

These definitions follow the words of the specification, not the source;
they exist to be compared with the embedded code. -/

/-- Modelled from the spec: the entity invariant, `completed` is true if
and only if `completedAt` is non-null. -/
def TodoInv (t : Todo) : Prop :=
  t.completed = true ↔ t.completedAt ≠ none

/-- Modelled from the spec: case-insensitive literal substring occurrence,
the reading of `search` as free text matched against a field. -/
def substrCI (needle hay : String) : Bool :=
  isSubL (needle.data.map lowerC) (hay.data.map lowerC)

/-- Modelled from the spec: `completionRate = round(100*completed/total)`
rounded half-up on exact rationals, `0` when `total = 0`. -/
def completionRateSpec (completed total : Nat) : ℤ :=
  if 0 < total then ⌊100 * (completed : ℚ) / (total : ℚ) + 1/2⌋ else 0

/-- Characters that are SQL LIKE wildcards. -/
def noWild (s : List Char) : Bool :=
  s.all fun c => c != '%' && c != '_'

/-! ## Entity-model theorems (C1, C9, C10) -/

/-- C1: for every `Todo` satisfying the invariant (`completed` is true iff
`completedAt` is non-null), each mutation of the entity model — `toggle`,
`complete`, `uncomplete`, and `update u` for every partial update `u` —
produces a state satisfying the invariant again. -/
theorem c1_mutations_preserve_invariant (t : Todo) (u : UpdateTodoDto)
    (now : Nat) (h : TodoInv t) :
    TodoInv (t.toggle now) ∧ TodoInv (t.complete now) ∧
    TodoInv (t.uncomplete now) ∧ TodoInv (t.update u now) := by
  refine ⟨?_, ?_, ?_, ?_⟩
  · cases hc : t.completed <;> simp [Todo.toggle, TodoInv, hc]
  · cases hc : t.completed
    · simp [Todo.complete, TodoInv, hc]
    · simpa [Todo.complete, hc] using h
  · cases hc : t.completed
    · simpa [Todo.uncomplete, hc] using h
    · simp [Todo.uncomplete, TodoInv, hc]
  · rcases hcu : u.completed with _ | c
    · simpa [Todo.update, hcu, TodoInv] using h
    · cases hc : t.completed <;> cases c <;>
        simp [Todo.update, hcu, hc, Todo.complete, Todo.uncomplete,
          TodoInv] <;>
        simpa [TodoInv, hc] using h

def c1T : Todo := Todo.create ⟨"Buy milk", none, none, none, none⟩ "w1" 3

def c1U : UpdateTodoDto := { completed := some true }

/-- Witness for C1 at a concrete entity and update. -/
theorem c1_witness :
    TodoInv c1T ∧
      (TodoInv (c1T.toggle 5) ∧ TodoInv (c1T.complete 5) ∧
       TodoInv (c1T.uncomplete 5) ∧ TodoInv (c1T.update c1U 5)) :=
  ⟨by simp [TodoInv, c1T, Todo.create],
    c1_mutations_preserve_invariant c1T c1U 5
      (by simp [TodoInv, c1T, Todo.create])⟩

/-- C9: creating a task from an input containing only the title yields
`completed = false`, `priority = medium`, `tags = []`, the freshly assigned
id, and `createdAt` equal to `updatedAt`. -/
theorem c9_create_defaults (id : String) (now : Nat) :
    (Todo.create ⟨"Buy milk", none, none, none, none⟩ id now).completed =
        false ∧
    (Todo.create ⟨"Buy milk", none, none, none, none⟩ id now).priority =
        .medium ∧
    (Todo.create ⟨"Buy milk", none, none, none, none⟩ id now).tags = [] ∧
    (Todo.create ⟨"Buy milk", none, none, none, none⟩ id now).id = id ∧
    (Todo.create ⟨"Buy milk", none, none, none, none⟩ id now).createdAt =
      (Todo.create ⟨"Buy milk", none, none, none, none⟩ id now).updatedAt :=
  ⟨rfl, rfl, rfl, rfl, rfl⟩

/-- C10: a partial update whose `completed` field is absent or equal to the
current value leaves `completedAt` unchanged. -/
theorem c10_update_frames_completedAt (t : Todo) (u : UpdateTodoDto)
    (now : Nat) (h : u.completed = none ∨ u.completed = some t.completed) :
    (t.update u now).completedAt = t.completedAt := by
  rcases h with h | h <;> simp [Todo.update, h]

def c10T : Todo :=
  { id := "w2", title := "Done task", description := none,
    completed := true, priority := .high, dueDate := none, tags := [],
    createdAt := 1, updatedAt := 1, completedAt := some 1 }

/-- Witness for C10: re-sending `completed = true` on an already completed
task does not re-stamp `completedAt`. -/
theorem c10_witness :
    (c10T.update { completed := some true, title := some "New" } 9
      ).completedAt = c10T.completedAt :=
  c10_update_frames_completedAt c10T
    { completed := some true, title := some "New" } 9 (by decide)

/-! ## Round-trip theorems (C7) -/

theorem strToPrio_prioStr (p : TodoPriority) : strToPrio (prioStr p) = p := by
  cases p <;> rfl

theorem validPrioStr_prioStr (p : TodoPriority) :
    validPrioStr (prioStr p) = true := by
  cases p <;> rfl

/-- Reading back the row image of an entity whose description is not the
empty string reproduces the entity. -/
theorem fromDatabase_toDatabase (t : Todo) (hd : t.description ≠ some "") :
    Todo.fromDatabase t.toDatabase = t := by
  rcases t with ⟨id, title, desc, comp, prio, due, tags, ca, ua, compAt⟩
  rcases desc with _ | d
  · cases comp <;> simp [Todo.fromDatabase, Todo.toDatabase, strToPrio_prioStr]
  · have hd' : d ≠ "" := fun h => hd (by simp [h])
    cases comp <;>
      simp [Todo.fromDatabase, Todo.toDatabase, strToPrio_prioStr, hd']

/-- Facts about a creation payload that passes validation: the title length
is within 3–100 and a present description has at most 500 characters. -/
theorem validate_ok_facts (dto : CreateTodoDto)
    (h : (TodoService.validateCreateTodoDto dto).isOk = true) :
    3 ≤ dto.title.length ∧ dto.title.length ≤ 100 ∧
    ∀ d, dto.description = some d → d.length ≤ 500 := by
  unfold TodoService.validateCreateTodoDto at h
  split_ifs at h with h1 h2 h3 h4 h5
  · exact absurd h (by simp [Except.isOk, Except.toBool])
  · exact absurd h (by simp [Except.isOk, Except.toBool])
  · exact absurd h (by simp [Except.isOk, Except.toBool])
  · exact absurd h (by simp [Except.isOk, Except.toBool])
  · exact absurd h (by simp [Except.isOk, Except.toBool])
  · refine ⟨by omega, by omega, ?_⟩
    intro d hd
    rw [hd] at h5
    simp at h5
    omega

/-- The row image of a freshly created entity with no due date passes every
table constraint of migration 001. -/
theorem create_rowCheckOk (dto : CreateTodoDto) (id : String) (now : Nat)
    (hval : (TodoService.validateCreateTodoDto dto).isOk = true)
    (hdue : dto.dueDate = none) :
    TodoRepository.rowCheckOk (Todo.create dto id now).toDatabase = true := by
  obtain ⟨ht3, ht100, hdlen⟩ := validate_ok_facts dto hval
  rcases hdto : dto.description with _ | d
  · simp [TodoRepository.rowCheckOk, Todo.toDatabase, Todo.create, hdue,
      hdto, validPrioStr_prioStr]
    omega
  · by_cases hde : d = ""
    · simp [TodoRepository.rowCheckOk, Todo.toDatabase, Todo.create, hdue,
        hdto, hde, validPrioStr_prioStr]
      omega
    · have h500 := hdlen d hdto
      simp [TodoRepository.rowCheckOk, Todo.toDatabase, Todo.create, hdue,
        hdto, hde, validPrioStr_prioStr]
      omega

/-- C7 (amended): creating a task from a valid input whose description is
not the empty string and whose due date is absent, then fetching it by its
fresh id, returns the created task exactly (hence equal on every field,
`updatedAt` included), the insert having satisfied every table constraint.
A valid input carrying a due date is never persisted at all: the table
CHECK `due_date IS datetime(due_date)` rejects every ISO string
`toDatabase` writes, so the INSERT throws (see the counterexample). -/
theorem c7_create_findById_roundtrip (dto : CreateTodoDto) (id : String)
    (now : Nat) (db : List DbRow)
    (hval : (TodoService.validateCreateTodoDto dto).isOk = true)
    (hdesc : dto.description ≠ some "")
    (hdue : dto.dueDate = none)
    (hfresh : ∀ r ∈ db, r.id ≠ id) :
    TodoRepository.create (Todo.create dto id now) db =
      .ok (db ++ [(Todo.create dto id now).toDatabase],
        Todo.create dto id now) ∧
    TodoRepository.findById id
        (db ++ [(Todo.create dto id now).toDatabase]) =
      some (Todo.create dto id now) := by
  have hrow := create_rowCheckOk dto id now hval hdue
  have hany : (db.any fun r0 =>
      r0.id == (Todo.create dto id now).toDatabase.id) = false := by
    rw [List.any_eq_false]
    intro r0 hr0
    simpa [Todo.toDatabase, Todo.create] using hfresh r0 hr0
  constructor
  · simp [TodoRepository.create, TodoRepository.insertRow, hany, hrow]
  · unfold TodoRepository.findById
    rw [List.find?_append]
    have h1 : db.find? (fun r => r.id == id) = none := by
      rw [List.find?_eq_none]
      intro r hr
      simpa using hfresh r hr
    have h2 : [(Todo.create dto id now).toDatabase].find?
        (fun r => r.id == id) = some (Todo.create dto id now).toDatabase := by
      simp [List.find?, Todo.toDatabase, Todo.create]
    rw [h1, h2]
    simp only [Option.or, Option.map]
    exact congrArg some (fromDatabase_toDatabase _ hdesc)

def c7DtoE : CreateTodoDto := ⟨"Buy milk", some "", none, none, none⟩

def c7DtoD : CreateTodoDto :=
  ⟨"Buy milk", none, none, some 1767225600000, none⟩

/-- Counterexample for C7 as stated, on two valid creation inputs: with an
empty-string description the insert succeeds but the fetched record has no
description while the created task does (`description || null` collapses
the empty string); and with a due date the insert throws a CHECK
constraint error and persists nothing, so no equal record can be fetched
at all. -/
theorem c7_counterexample :
    (TodoService.validateCreateTodoDto c7DtoE).isOk = true ∧
    TodoRepository.create (Todo.create c7DtoE "id9" 0) [] =
      .ok ([(Todo.create c7DtoE "id9" 0).toDatabase],
        Todo.create c7DtoE "id9" 0) ∧
    (TodoRepository.findById "id9"
        [(Todo.create c7DtoE "id9" 0).toDatabase]).map
      (fun t => t.description) = some none ∧
    (Todo.create c7DtoE "id9" 0).description = some "" ∧
    (TodoService.validateCreateTodoDto c7DtoD).isOk = true ∧
    TodoRepository.create (Todo.create c7DtoD "idA" 0) [] =
      .error (.storage "SqliteError: CHECK constraint failed: todos") :=
  ⟨by decide, by rfl, by rfl, by rfl, by decide, by rfl⟩

/-- Witness for C7 at a concrete creation input. -/
theorem c7_witness :
    TodoRepository.create
        (Todo.create ⟨"Buy milk", some "du lait", none, none, none⟩
          "idw" 4) [] =
      .ok ([(Todo.create ⟨"Buy milk", some "du lait", none, none, none⟩
          "idw" 4).toDatabase],
        Todo.create ⟨"Buy milk", some "du lait", none, none, none⟩
          "idw" 4) ∧
    TodoRepository.findById "idw"
        ([] ++ [(Todo.create ⟨"Buy milk", some "du lait", none, none, none⟩
          "idw" 4).toDatabase]) =
      some (Todo.create ⟨"Buy milk", some "du lait", none, none, none⟩
        "idw" 4) := by
  have h := c7_create_findById_roundtrip
    ⟨"Buy milk", some "du lait", none, none, none⟩ "idw" 4 []
    (by decide) (by decide) (by rfl) (by simp)
  simpa using h

/-! ## Bulk-creation theorems (C2) -/

/-- Characterisation of the first validation failure found by the batch
loop: if everything before index `i` validates and element `i` does not,
the loop reports index `i` (shifted by the accumulator). -/
theorem firstInvalid_spec (dtos : List CreateTodoDto) (k i : Nat)
    (hi : i < dtos.length)
    (hbad : (TodoService.validateCreateTodoDto (dtos.get ⟨i, hi⟩)).isOk =
      false)
    (hpre : ((dtos.take i).all
      fun d => (TodoService.validateCreateTodoDto d).isOk) = true) :
    ∃ e, TodoService.firstInvalid k dtos = some (k + i, e) := by
  induction dtos generalizing k i with
  | nil => simp at hi
  | cons d ds ih =>
    cases i with
    | zero =>
      have hb : (TodoService.validateCreateTodoDto d).isOk = false := hbad
      rcases hv : TodoService.validateCreateTodoDto d with e | u
      · exact ⟨e, by simp [TodoService.firstInvalid, hv]⟩
      · rw [hv] at hb
        simp [Except.isOk, Except.toBool] at hb
    | succ i' =>
      rw [List.take_succ_cons, List.all_cons, Bool.and_eq_true] at hpre
      rcases hv : TodoService.validateCreateTodoDto d with e | u
      · have hd := hpre.1
        rw [hv] at hd
        simp [Except.isOk, Except.toBool] at hd
      · have hi' : i' < ds.length := by
          have hlen := hi
          simp only [List.length_cons] at hlen
          omega
        have hbad' : (TodoService.validateCreateTodoDto
            (ds.get ⟨i', hi'⟩)).isOk = false := hbad
        rcases ih (k + 1) i' hi' hbad' hpre.2 with ⟨e, he⟩
        refine ⟨e, ?_⟩
        have harith : k + 1 + i' = k + (i' + 1) := by omega
        rw [harith] at he
        calc TodoService.firstInvalid k (d :: ds)
            = TodoService.firstInvalid (k + 1) ds := by
              simp [TodoService.firstInvalid, hv]
          _ = some (k + (i' + 1), e) := he

/-- C2 (amended): for every batch of at most 100 elements whose first
invalid element sits at index `i`, `bulkCreate` rejects the whole batch
with a validation error carrying index `i`; no state is produced, so the
stored collection is unchanged.  Batches above the 100-element cap are
also rejected with a validation error, but that error carries the batch
size, not an index (see the counterexample). -/
theorem c2_bulkCreate_all_or_nothing (dtos : List CreateTodoDto)
    (idGen : Nat → String) (now : Nat) (db : List DbRow) (i : Nat)
    (h100 : dtos.length ≤ 100) (hi : i < dtos.length)
    (hbad : (TodoService.validateCreateTodoDto (dtos.get ⟨i, hi⟩)).isOk =
      false)
    (hpre : ((dtos.take i).all
      fun d => (TodoService.validateCreateTodoDto d).isOk) = true) :
    TodoService.bulkCreate dtos idGen now db =
      .error (.validation
        ("Validation échouée pour le todo à l'index " ++ natToString i)
        (some i)) := by
  have hne : ¬ dtos.length = 0 := by omega
  have hcap : ¬ 100 < dtos.length := by omega
  rcases firstInvalid_spec dtos 0 i hi hbad hpre with ⟨e, he⟩
  rw [TodoService.bulkCreate, if_neg hne, if_neg hcap, he]
  simp

def c2Dtos : List CreateTodoDto :=
  [⟨"Tache une", none, none, none, none⟩,
   ⟨"Tache deux", none, none, none, none⟩,
   ⟨"ab", none, none, none, none⟩]

/-- Witness for C2: scenario D — two valid entries followed by one with
title `"ab"` are rejected with an error referencing index 2. -/
theorem c2_witness :
    TodoService.bulkCreate c2Dtos (fun _ => "x") 0 [] =
      .error (.validation
        ("Validation échouée pour le todo à l'index " ++ natToString 2)
        (some 2)) :=
  c2_bulkCreate_all_or_nothing c2Dtos (fun _ => "x") 0 [] 2
    (by decide) (by decide) (by decide) (by decide)

def c2Big : List CreateTodoDto :=
  List.replicate 100 ⟨"abc", none, none, none, none⟩ ++
    [⟨"ab", none, none, none, none⟩]

/-- Counterexample for C2 as stated: a 101-element batch whose last element
is invalid is rejected by the size check, whose validation error carries no
index at all, so the error does not identify the first failing element. -/
theorem c2_counterexample :
    (TodoService.validateCreateTodoDto
        ⟨"ab", none, none, none, none⟩).isOk = false ∧
    c2Big.get? 100 = some ⟨"ab", none, none, none, none⟩ ∧
    TodoService.bulkCreate c2Big (fun _ => "x") 0 [] =
      .error (.validation "Maximum 100 todos par requête en masse" none) :=
  ⟨by decide, by decide, by rfl⟩

/-! ## Service pagination-guard theorems (C5) -/

/-- C5: the claim asks `getAllTodos` to reject every `page < 1` and every
`limit` outside `[1, 100]`; the truthiness guards `params.page &&
params.page < 1` and `params.limit && params.limit < 1` treat a present 0
as falsy, so `page = 0` and `limit = 0` are not rejected and the query
runs, while `-1`, `101` and `-2` are rejected as intended. -/
theorem c5_truthiness_gap :
    (TodoService.getAllTodos { page := some 0 } []).isOk = true ∧
    (TodoService.getAllTodos { limit := some 0 } []).isOk = true ∧
    TodoService.getAllTodos { page := some (-1) } [] =
      .error (.validation "Le numéro de page doit être >= 1" none) ∧
    TodoService.getAllTodos { limit := some 101 } [] =
      .error (.validation "La limite ne peut pas dépasser 100" none) ∧
    TodoService.getAllTodos { limit := some (-2) } [] =
      .error (.validation "La limite doit être >= 1" none) :=
  ⟨by decide, by decide, by rfl, by rfl, by rfl⟩

/-! ## Sorting theorems (C3) -/

/-- Urgency rank of a priority: most urgent first, matching the fixed CASE
order of the SQL (`high → 1, medium → 2, low → 3`). -/
def urgRank : TodoPriority → Nat
  | .high => 1
  | .medium => 2
  | .low => 3

theorem prioRankStr_valid (s : String) (h : validPrioStr s = true) :
    TodoRepository.prioRankStr s = urgRank (strToPrio s) := by
  simp [validPrioStr] at h
  rcases h with (h | h) | h <;> subst h <;> rfl

theorem applyPage_sublist (lim off : Int) (l : List α) :
    (TodoRepository.applyPage lim off l).Sublist l := by
  simp only [TodoRepository.applyPage]
  split_ifs <;>
    first
      | exact List.Sublist.refl _
      | exact List.take_sublist _ _
      | exact List.drop_sublist _ _
      | exact (List.take_sublist _ _).trans (List.drop_sublist _ _)

theorem rowLe_prio_total (asc : Bool) (a b : DbRow) :
    TodoRepository.rowLe .priority asc a b = true ∨
      TodoRepository.rowLe .priority asc b a = true := by
  cases asc <;>
    simp [TodoRepository.rowLe, TodoRepository.keyLe] <;>
    omega

theorem rowLe_prio_trans (asc : Bool) (a b c : DbRow)
    (h1 : TodoRepository.rowLe .priority asc a b = true)
    (h2 : TodoRepository.rowLe .priority asc b c = true) :
    TodoRepository.rowLe .priority asc a c = true := by
  cases asc <;>
    simp [TodoRepository.rowLe, TodoRepository.keyLe] at * <;>
    omega

/-- Unfolding of the `findAll` result list. -/
theorem findAll_data (p : QueryParams) (db : List DbRow) :
    (TodoRepository.findAll p db).data =
      (TodoRepository.applyPage (p.limit.getD 50)
          ((p.page.getD 1 - 1) * (p.limit.getD 50))
          (insSort
            (TodoRepository.rowLe (p.sortBy.getD .createdAt)
              (p.sortOrder.getD .desc == SortOrder.asc))
            (db.filter
              (TodoRepository.matchesQuery (p.filter.getD .all) p.priority
                p.search p.tags)))).map Todo.fromDatabase := rfl

/-- Rows delivered by the filter-sort-paginate pipeline all come from the
table. -/
theorem pipeline_mem (lim off : Int) (le : DbRow → DbRow → Bool)
    (q : DbRow → Bool) (db : List DbRow) (r : DbRow)
    (hr : r ∈ TodoRepository.applyPage lim off (insSort le (db.filter q))) :
    r ∈ db := by
  have h1 := (applyPage_sublist lim off _).mem hr
  rw [mem_insSort] at h1
  exact (List.mem_filter.mp h1).1

def c3Rows : List DbRow :=
  [(Todo.create ⟨"Tache une", none, some .low, none, none⟩ "id1" 1
    ).toDatabase,
   (Todo.create ⟨"Tache deux", none, some .high, none, none⟩ "id2" 2
    ).toDatabase,
   (Todo.create ⟨"Tache trois", none, some .medium, none, none⟩ "id3" 3
    ).toDatabase]

/-- C3: with `sortField = priority`, `findAll` returns the records ordered
by the fixed urgency rank — ascending gives high, then medium, then low;
descending the reverse — for every collection whose rows carry legal
priority strings (guaranteed by the table CHECK constraint); and the
concrete scenario of three tasks created with priorities low, high, medium
queried ascending comes back high, medium, low. -/
theorem c3_priority_sort_order (p : QueryParams) (db : List DbRow)
    (hvalid : ∀ r ∈ db, validPrioStr r.priority = true)
    (hsb : p.sortBy = some .priority) :
    (p.sortOrder = some .asc →
      ((TodoRepository.findAll p db).data.map
        fun t => urgRank t.priority).Pairwise (· ≤ ·)) ∧
    (p.sortOrder = some .desc →
      ((TodoRepository.findAll p db).data.map
        fun t => urgRank t.priority).Pairwise (· ≥ ·)) ∧
    ((TodoRepository.findAll
        { sortBy := some .priority, sortOrder := some .asc } c3Rows).data.map
      fun t => t.priority) = [.high, .medium, .low] := by
  refine ⟨?_, ?_, by decide⟩
  · intro hso
    rw [findAll_data, hsb, hso]
    simp only [Option.getD_some]
    rw [List.pairwise_map, List.pairwise_map]
    have hb : (SortOrder.asc == SortOrder.asc) = true := by decide
    rw [hb]
    have hsorted := pairwise_insSort (TodoRepository.rowLe .priority true)
      (rowLe_prio_total true) (rowLe_prio_trans true)
      (db.filter
        (TodoRepository.matchesQuery (p.filter.getD .all) p.priority
          p.search p.tags))
    have hrows := List.Pairwise.sublist
      (applyPage_sublist (p.limit.getD 50)
        ((p.page.getD 1 - 1) * (p.limit.getD 50)) _) hsorted
    refine hrows.imp_of_mem ?_
    intro a b ha hb hab
    have hva := hvalid a (pipeline_mem _ _ _ _ _ _ ha)
    have hvb := hvalid b (pipeline_mem _ _ _ _ _ _ hb)
    have hle : TodoRepository.prioRankStr a.priority ≤
        TodoRepository.prioRankStr b.priority := by
      simpa [TodoRepository.rowLe, TodoRepository.keyLe] using hab
    rw [prioRankStr_valid _ hva, prioRankStr_valid _ hvb] at hle
    exact hle
  · intro hso
    rw [findAll_data, hsb, hso]
    simp only [Option.getD_some]
    rw [List.pairwise_map, List.pairwise_map]
    have hb : (SortOrder.desc == SortOrder.asc) = false := by decide
    rw [hb]
    have hsorted := pairwise_insSort (TodoRepository.rowLe .priority false)
      (rowLe_prio_total false) (rowLe_prio_trans false)
      (db.filter
        (TodoRepository.matchesQuery (p.filter.getD .all) p.priority
          p.search p.tags))
    have hrows := List.Pairwise.sublist
      (applyPage_sublist (p.limit.getD 50)
        ((p.page.getD 1 - 1) * (p.limit.getD 50)) _) hsorted
    refine hrows.imp_of_mem ?_
    intro a b ha hb hab
    have hva := hvalid a (pipeline_mem _ _ _ _ _ _ ha)
    have hvb := hvalid b (pipeline_mem _ _ _ _ _ _ hb)
    have hle : TodoRepository.prioRankStr b.priority ≤
        TodoRepository.prioRankStr a.priority := by
      simpa [TodoRepository.rowLe, TodoRepository.keyLe] using hab
    rw [prioRankStr_valid _ hva, prioRankStr_valid _ hvb] at hle
    exact hle

def c3Db : List DbRow :=
  [(Todo.create ⟨"Autre tache", none, some .medium, none, none⟩ "id4" 4
    ).toDatabase,
   (Todo.create ⟨"Tache cinq", none, some .high, none, none⟩ "id5" 5
    ).toDatabase]

/-- Witness for C3 on a concrete collection and ascending query. -/
theorem c3_witness :
    ((TodoRepository.findAll
        { sortBy := some .priority, sortOrder := some .asc } c3Db).data.map
      fun t => urgRank t.priority).Pairwise (· ≤ ·) :=
  (c3_priority_sort_order
    { sortBy := some .priority, sortOrder := some .asc } c3Db
    (by decide) rfl).1 rfl

/-! ## Pagination theorems (C4) -/

theorem ceilDiv_mul_ge (n lt : Nat) (h : 0 < lt) :
    n ≤ ((n + lt - 1) / lt) * lt := by
  rcases Nat.eq_zero_or_pos n with hn | hn
  · simp [hn]
  · have hrw : n + lt - 1 = (n - 1) + lt := by omega
    rw [hrw, Nat.add_div_right _ h]
    have hlt2 : (n - 1) / lt < (n - 1) / lt + 1 := Nat.lt_succ_self _
    rw [Nat.div_lt_iff_lt_mul h] at hlt2
    omega

theorem jsCeil_nat_div (n : Nat) (l : Int) (hl : 1 ≤ l) :
    TodoRepository.jsCeil ((n : ℚ) / (l : ℚ)) =
      (((n + l.toNat - 1) / l.toNat : Nat) : Int) := by
  have hlt : 0 < l.toNat := by omega
  have hlq : (l : ℚ) = (l.toNat : ℚ) := by
    exact_mod_cast congrArg (fun z : ℤ => (z : ℚ))
      (Int.toNat_of_nonneg (by omega : (0:ℤ) ≤ l)).symm
  have hltq : (0 : ℚ) < (l.toNat : ℚ) := by exact_mod_cast hlt
  rw [TodoRepository.jsCeil, Int.ceil_eq_iff, hlq]
  constructor
  · rcases Nat.eq_zero_or_pos ((n + l.toNat - 1) / l.toNat) with hk0 | hk1
    · rw [hk0]
      push_cast
      have hdiv : (0:ℚ) ≤ (n : ℚ) / (l.toNat : ℚ) := by positivity
      linarith
    · rw [lt_div_iff₀ hltq]
      have hnat : ((n + l.toNat - 1) / l.toNat - 1) * l.toNat < n := by
        have hmul : ((n + l.toNat - 1) / l.toNat) * l.toNat ≤
            n + l.toNat - 1 := Nat.div_mul_le_self _ _
        rw [Nat.sub_mul, Nat.one_mul]
        have hn1 : 1 ≤ n := by
          by_contra hc
          have hn0 : n = 0 := by omega
          rw [hn0] at hk1
          rw [Nat.div_eq_of_lt (by omega)] at hk1
          omega
        generalize hX : ((n + l.toNat - 1) / l.toNat) * l.toNat = X at *
        omega
      have hq := hnat
      qify [hk1] at hq
      push_cast
      push_cast at hq
      linarith
  · rw [div_le_iff₀ hltq]
    have := ceilDiv_mul_ge n l.toNat hlt
    push_cast
    exact_mod_cast this

/-- Unfolding of the `findAll` metadata. -/
theorem findAll_meta (p : QueryParams) (db : List DbRow) :
    (TodoRepository.findAll p db).meta =
      { currentPage := p.page.getD 1
        totalPages := TodoRepository.jsCeil
          (((db.filter
              (TodoRepository.matchesQuery (p.filter.getD .all) p.priority
                p.search p.tags)).length : ℚ) / ((p.limit.getD 50 : ℤ) : ℚ))
        totalItems := (db.filter
          (TodoRepository.matchesQuery (p.filter.getD .all) p.priority
            p.search p.tags)).length
        itemsPerPage := p.limit.getD 50
        hasNextPage := decide (p.page.getD 1 < TodoRepository.jsCeil
          (((db.filter
              (TodoRepository.matchesQuery (p.filter.getD .all) p.priority
                p.search p.tags)).length : ℚ) / ((p.limit.getD 50 : ℤ) : ℚ)))
        hasPreviousPage := decide (1 < p.page.getD 1) } := rfl

/-- C4: for every valid query spec (`page ≥ 1`, `limit ∈ [1,100]`), the
metadata of `findAll` satisfies `totalPages = ceil(totalItems / limit)`
(stated through the exact natural-number ceiling), `itemsPerPage = limit`,
`currentPage = page`, `hasNextPage ↔ page < totalPages`,
`hasPreviousPage ↔ page > 1`; and every page beyond `totalPages` yields an
empty data array while the metadata is still computed from the true totals
(the call returns normally — it is total — rather than raising). -/
theorem c4_pagination_metadata (p : QueryParams) (db : List DbRow)
    (pg lim : Int) (hp : p.page = some pg) (hl : p.limit = some lim)
    (hp1 : 1 ≤ pg) (hl1 : 1 ≤ lim) (hl100 : lim ≤ 100) :
    (TodoRepository.findAll p db).meta.totalPages =
      ((((TodoRepository.findAll p db).meta.totalItems + lim.toNat - 1) /
        lim.toNat : Nat) : Int) ∧
    (TodoRepository.findAll p db).meta.itemsPerPage = lim ∧
    (TodoRepository.findAll p db).meta.currentPage = pg ∧
    ((TodoRepository.findAll p db).meta.hasNextPage = true ↔
      pg < (TodoRepository.findAll p db).meta.totalPages) ∧
    ((TodoRepository.findAll p db).meta.hasPreviousPage = true ↔ 1 < pg) ∧
    ((TodoRepository.findAll p db).meta.totalPages < pg →
      (TodoRepository.findAll p db).data = []) := by
  have hm := findAll_meta p db
  rw [hp, hl] at hm
  simp only [Option.getD_some] at hm
  refine ⟨?_, ?_, ?_, ?_, ?_, ?_⟩
  · rw [hm]
    exact jsCeil_nat_div _ lim hl1
  · rw [hm]
  · rw [hm]
  · rw [hm]
    simp [decide_eq_true_iff]
  · rw [hm]
    simp [decide_eq_true_iff]
  · intro hgt
    rw [hm] at hgt
    dsimp only at hgt
    rw [jsCeil_nat_div _ lim hl1] at hgt
    rw [findAll_data, hp, hl]
    simp only [Option.getD_some]
    set n := (db.filter
      (TodoRepository.matchesQuery (p.filter.getD .all) p.priority
        p.search p.tags)).length with hn
    set k := (n + lim.toNat - 1) / lim.toNat with hk
    have hlt : 0 < lim.toNat := by omega
    have hnk : n ≤ k * lim.toNat := ceilDiv_mul_ge n lim.toNat hlt
    have h3 : (n : ℤ) ≤ (k : ℤ) * lim := by
      have hc : ((k * lim.toNat : ℕ) : ℤ) = (k : ℤ) * lim := by
        push_cast
        rw [Int.toNat_of_nonneg (by omega : (0:ℤ) ≤ lim)]
      calc (n : ℤ) ≤ ((k * lim.toNat : ℕ) : ℤ) := by exact_mod_cast hnk
        _ = (k : ℤ) * lim := hc
    have h2 : (k : ℤ) * lim ≤ (pg - 1) * lim :=
      mul_le_mul_of_nonneg_right (by omega) (by omega)
    have h4 : (n : ℤ) ≤ (pg - 1) * lim := le_trans h3 h2
    have hoff0 : (0 : ℤ) ≤ (pg - 1) * lim :=
      mul_nonneg (by omega) (by omega)
    have h5 : n ≤ ((pg - 1) * lim).toNat := by
      generalize hX : (pg - 1) * lim = X at h4 hoff0 ⊢
      omega
    have hlim0 : ¬ (lim < 0) := by omega
    have hoffc : ¬ ((pg - 1) * lim < 0) := by omega
    simp only [TodoRepository.applyPage, if_neg hoffc, if_neg hlim0]
    rw [List.drop_eq_nil_of_le]
    · simp
    · rw [length_insSort]
      exact h5

def c4Db : List DbRow :=
  [(Todo.create ⟨"Tache six", none, none, none, none⟩ "id6" 6).toDatabase,
   (Todo.create ⟨"Tache sept", none, none, none, none⟩ "id7" 7).toDatabase,
   (Todo.create ⟨"Tache huit", none, none, none, none⟩ "id8" 8).toDatabase]

/-- Witness for C4 at a concrete collection and query (page 2 of 3 records
with limit 2). -/
theorem c4_witness :
    (TodoRepository.findAll { page := some 2, limit := some 2 } c4Db
      ).meta.totalPages =
      ((((TodoRepository.findAll { page := some 2, limit := some 2 } c4Db
        ).meta.totalItems + (2:ℤ).toNat - 1) / (2:ℤ).toNat : Nat) : Int) ∧
    (TodoRepository.findAll { page := some 2, limit := some 2 } c4Db
      ).meta.itemsPerPage = 2 ∧
    (TodoRepository.findAll { page := some 2, limit := some 2 } c4Db
      ).meta.currentPage = 2 ∧
    ((TodoRepository.findAll { page := some 2, limit := some 2 } c4Db
      ).meta.hasNextPage = true ↔
      2 < (TodoRepository.findAll { page := some 2, limit := some 2 } c4Db
        ).meta.totalPages) ∧
    ((TodoRepository.findAll { page := some 2, limit := some 2 } c4Db
      ).meta.hasPreviousPage = true ↔ 1 < (2:ℤ)) ∧
    ((TodoRepository.findAll { page := some 2, limit := some 2 } c4Db
      ).meta.totalPages < 2 →
      (TodoRepository.findAll { page := some 2, limit := some 2 } c4Db
        ).data = []) :=
  c4_pagination_metadata { page := some 2, limit := some 2 } c4Db 2 2
    rfl rfl (by decide) (by decide) (by decide)

/-! ## Search-clause theorems (C6) -/

theorem bool_ext (a b : Bool) (h : a = true ↔ b = true) : a = b := by
  cases a <;> cases b <;> simp_all

/-- The fuel of `likeM` is irrelevant once it exceeds the combined length
of pattern and text. -/
theorem likeM_fuel (f : Nat) : ∀ (g : Nat) (p t : List Char),
    p.length + t.length < f → p.length + t.length < g →
    likeM f p t = likeM g p t := by
  induction f with
  | zero =>
    intro g p t hf hg
    omega
  | succ f ih =>
    intro g p t hf hg
    cases g with
    | zero => omega
    | succ g' =>
      rcases p with _ | ⟨a, p'⟩
      · rcases t with _ | ⟨c, t'⟩ <;> rfl
      · simp only [List.length_cons] at hf hg
        simp only [likeM]
        by_cases ha : a = '%'
        · simp only [if_pos ha]
          rcases t with _ | ⟨c, t'⟩
          · simp only [List.length_nil] at hf hg
            rw [ih g' p' [] (by simp; omega) (by simp; omega)]
          · simp only [List.length_cons] at hf hg
            dsimp only
            rw [ih g' p' (c :: t')
                (by simp only [List.length_cons]; omega)
                (by simp only [List.length_cons]; omega),
              ih g' (a :: p') t'
                (by simp only [List.length_cons]; omega)
                (by simp only [List.length_cons]; omega)]
        · simp only [if_neg ha]
          rcases t with _ | ⟨c, t'⟩
          · rfl
          · simp only [List.length_cons] at hf hg
            by_cases hu : a = '_'
            · simp only [if_pos hu]
              exact ih g' p' t' (by omega) (by omega)
            · simp only [if_neg hu]
              rw [ih g' p' t' (by omega) (by omega)]

/-- Any large enough fuel computes `likeMatch`. -/
theorem likeM_eq_likeMatch (f : Nat) (p t : List Char)
    (hf : p.length + t.length < f) : likeM f p t = likeMatch p t :=
  likeM_fuel f (p.length + t.length + 1) p t hf (by omega)

/-- One-step unfolding of a leading `%`. -/
theorem likeMatch_percent (p t : List Char) :
    likeMatch ('%' :: p) t =
      (likeMatch p t ||
        (match t with
         | [] => false
         | _ :: t' => likeMatch ('%' :: p) t')) := by
  have h0 : likeMatch ('%' :: p) t =
      likeM ((p.length + t.length + 1) + 1) ('%' :: p) t := by
    simp only [likeMatch, List.length_cons]
    congr 1
    omega
  rw [h0]
  have hF : p.length + t.length < p.length + t.length + 1 := by omega
  generalize hFe : p.length + t.length + 1 = F at hF
  rcases t with _ | ⟨c, t'⟩
  · show (likeM F p [] || false) = (likeMatch p [] || false)
    rw [likeM_eq_likeMatch F p [] (by simp; omega)]
  · show (likeM F p (c :: t') || likeM F ('%' :: p) t') =
      (likeMatch p (c :: t') || likeMatch ('%' :: p) t')
    simp only [List.length_cons] at hF
    rw [likeM_eq_likeMatch F p (c :: t')
        (by simp only [List.length_cons]; omega),
      likeM_eq_likeMatch F ('%' :: p) t'
        (by simp only [List.length_cons]; omega)]

/-- One-step unfolding of a leading ordinary character. -/
theorem likeMatch_char (a : Char) (p t : List Char) (ha : a ≠ '%') :
    likeMatch (a :: p) t =
      (match t with
       | [] => false
       | c :: t' =>
         if a = '_' then likeMatch p t'
         else (lowerC a == lowerC c) && likeMatch p t') := by
  have h0 : likeMatch (a :: p) t =
      likeM ((p.length + t.length + 1) + 1) (a :: p) t := by
    simp only [likeMatch, List.length_cons]
    congr 1
    omega
  rw [h0]
  have hF : p.length + t.length < p.length + t.length + 1 := by omega
  generalize hFe : p.length + t.length + 1 = F at hF
  simp only [likeM, if_neg ha]
  rcases t with _ | ⟨c, t'⟩
  · rfl
  · simp only [List.length_cons] at hF
    dsimp only
    by_cases hu : a = '_'
    · simp only [if_pos hu]
      rw [likeM_eq_likeMatch F p t' (by omega)]
    · simp only [if_neg hu]
      rw [likeM_eq_likeMatch F p t' (by omega)]

/-- A leading `%` matches exactly when some suffix matches the rest of the
pattern. -/
theorem likeMatch_star (p t : List Char) :
    likeMatch ('%' :: p) t = true ↔
      ∃ i, i ≤ t.length ∧ likeMatch p (t.drop i) = true := by
  induction t with
  | nil =>
    rw [likeMatch_percent]
    simp only [Bool.or_false]
    constructor
    · intro h
      exact ⟨0, by omega, h⟩
    · rintro ⟨i, hi, h⟩
      rcases Nat.eq_zero_of_le_zero hi
      exact h
  | cons c t' ih =>
    rw [likeMatch_percent]
    simp only [Bool.or_eq_true, ih]
    constructor
    · rintro (h | ⟨i, hi, h⟩)
      · exact ⟨0, by simp, h⟩
      · exact ⟨i + 1, by simp; omega, h⟩
    · rintro ⟨i, hi, h⟩
      cases i with
      | zero => exact Or.inl h
      | succ j =>
        refine Or.inr ⟨j, ?_, h⟩
        simp at hi
        omega

/-- A wildcard-free pattern followed by `%` matches exactly the texts whose
lower-cased form starts with the lower-cased pattern. -/
theorem likeMatch_lit_percent (s : List Char) (hs : noWild s = true) :
    ∀ u : List Char,
      likeMatch (s ++ ['%']) u = isPrefixL (s.map lowerC) (u.map lowerC) := by
  induction s with
  | nil =>
    intro u
    induction u with
    | nil => rfl
    | cons c u' ihu =>
      simp only [List.nil_append] at ihu ⊢
      rw [likeMatch_percent]
      simp only [List.map_nil, isPrefixL] at ihu ⊢
      rw [ihu]
      cases likeMatch [] (c :: u') <;> rfl
  | cons a s' ihs =>
    intro u
    rw [noWild, List.all_cons, Bool.and_eq_true] at hs
    have ha : a ≠ '%' := by
      have := hs.1
      rw [Bool.and_eq_true] at this
      simpa using this.1
    have hu : a ≠ '_' := by
      have := hs.1
      rw [Bool.and_eq_true] at this
      simpa using this.2
    have ihs' := ihs hs.2
    rcases u with _ | ⟨c, u'⟩
    · rw [List.cons_append, likeMatch_char a (s' ++ ['%']) [] ha]
      rfl
    · rw [List.cons_append, likeMatch_char a (s' ++ ['%']) (c :: u') ha]
      simp only [if_neg hu, List.map_cons, isPrefixL]
      rw [ihs' u']

/-- Boolean substring test as an existential over suffixes. -/
theorem isSubL_iff (s t : List Char) :
    isSubL s t = true ↔
      ∃ i, i ≤ t.length ∧ isPrefixL s (t.drop i) = true := by
  induction t with
  | nil =>
    constructor
    · intro h
      refine ⟨0, by omega, ?_⟩
      rcases s with _ | ⟨a, s'⟩
      · rfl
      · simp [isSubL, List.isEmpty] at h
    · rintro ⟨i, hi, h⟩
      rcases Nat.eq_zero_of_le_zero hi
      rcases s with _ | ⟨a, s'⟩
      · rfl
      · simp [isPrefixL] at h
  | cons c t' ih =>
    simp only [isSubL, Bool.or_eq_true, ih]
    constructor
    · rintro (h | ⟨i, hi, h⟩)
      · exact ⟨0, by simp, h⟩
      · exact ⟨i + 1, by simp; omega, h⟩
    · rintro ⟨i, hi, h⟩
      cases i with
      | zero => exact Or.inl h
      | succ j =>
        refine Or.inr ⟨j, ?_, h⟩
        simp at hi
        omega

/-- The pattern `'%' + s + '%'` built from a wildcard-free `s` matches a
text exactly when the lower-cased `s` occurs in the lower-cased text as a
contiguous substring. -/
theorem likeMatch_wrap (s t : List Char) (hs : noWild s = true) :
    likeMatch (wrapPat s) t = isSubL (s.map lowerC) (t.map lowerC) := by
  apply bool_ext
  rw [wrapPat, likeMatch_star, isSubL_iff]
  constructor
  · rintro ⟨i, hi, h⟩
    rw [likeMatch_lit_percent s hs] at h
    refine ⟨i, by simpa using hi, ?_⟩
    rw [← List.map_drop]
    exact h
  · rintro ⟨i, hi, h⟩
    refine ⟨i, by simpa using hi, ?_⟩
    rw [likeMatch_lit_percent s hs, List.map_drop]
    exact h

theorem applyPage_all (lim : Int) (l : List α) (h0 : 0 ≤ lim)
    (hlen : l.length ≤ lim.toNat) :
    TodoRepository.applyPage lim 0 l = l := by
  simp only [TodoRepository.applyPage]
  rw [if_neg (by omega : ¬ ((0:ℤ) < 0)), if_neg (by omega : ¬ (lim < 0))]
  show (l.drop 0).take lim.toNat = l
  rw [List.drop_zero]
  exact List.take_of_length_le hlen

/-- C6 (amended): with a non-blank search string `s` and no other filter,
a task is included in `findAll`'s result exactly when the SQL pattern
`'%' + s.trim() + '%'` LIKE-matches its title or its (present) description;
and whenever the trimmed `s` contains no `%` or `_` wildcard, that
condition is precisely case-insensitive literal substring occurrence of
the trimmed `s` in the title or the description. -/
theorem c6_search_filter_semantics (db : List DbRow) (s : String)
    (lim : Int) (hs : 0 < (jsTrim s).length)
    (hlim : (db.length : ℤ) ≤ lim) :
    (∀ r ∈ db, TodoRepository.searchCond s r = true →
      Todo.fromDatabase r ∈
        (TodoRepository.findAll
          { search := some s, page := some 1, limit := some lim } db).data) ∧
    (∀ t ∈ (TodoRepository.findAll
        { search := some s, page := some 1, limit := some lim } db).data,
      ∃ r ∈ db, TodoRepository.searchCond s r = true ∧
        t = Todo.fromDatabase r) ∧
    (noWild (jsTrim s).data = true → ∀ r : DbRow,
      TodoRepository.searchCond s r =
        (substrCI (jsTrim s) r.title ||
          (match r.description with
           | some d => substrCI (jsTrim s) d
           | none => false))) := by
  have hmq : ∀ r, TodoRepository.matchesQuery .all none (some s) none r =
      TodoRepository.searchCond s r := by
    intro r
    simp [TodoRepository.matchesQuery, hs]
  have hlim0 : (0 : ℤ) ≤ lim := le_trans (by positivity) hlim
  have hdata : (TodoRepository.findAll
      { search := some s, page := some 1, limit := some lim } db).data =
      (insSort (TodoRepository.rowLe .createdAt
          (SortOrder.desc == SortOrder.asc))
        (db.filter (TodoRepository.searchCond s))).map Todo.fromDatabase := by
    rw [findAll_data]
    simp only [Option.getD_some, Option.getD_none]
    rw [List.filter_congr (fun r _ => hmq r)]
    have hoff : ((1:ℤ) - 1) * lim = 0 := by ring
    rw [hoff, applyPage_all lim _ hlim0]
    rw [length_insSort]
    calc (db.filter (TodoRepository.searchCond s)).length ≤ db.length :=
        List.length_filter_le _ _
      _ ≤ lim.toNat := by omega
  refine ⟨?_, ?_, ?_⟩
  · intro r hr hcond
    rw [hdata]
    exact List.mem_map.mpr
      ⟨r, (mem_insSort _ _ _).mpr (List.mem_filter.mpr ⟨hr, hcond⟩), rfl⟩
  · intro t ht
    rw [hdata] at ht
    rcases List.mem_map.mp ht with ⟨r, hr, rfl⟩
    have hr' := (mem_insSort _ _ _).mp hr
    rcases List.mem_filter.mp hr' with ⟨hrdb, hrc⟩
    exact ⟨r, hrdb, hrc, rfl⟩
  · intro hw r
    rcases hdesc : r.description with _ | d
    · simp only [TodoRepository.searchCond, hdesc]
      rw [likeMatch_wrap _ _ hw]
      rfl
    · simp only [TodoRepository.searchCond, hdesc]
      rw [likeMatch_wrap _ _ hw, likeMatch_wrap _ _ hw]
      rfl

def c6Row : DbRow :=
  (Todo.create ⟨"abc", none, none, none, none⟩ "idc6" 0).toDatabase

/-- Counterexample for C6 as stated: the search string `a_c` does not occur
as a literal substring (case-insensitively) in the title `abc`, and the
task has no description, yet the task is returned, because `_` is a SQL
LIKE wildcard matching any single character. -/
theorem c6_counterexample :
    ((TodoRepository.findAll { search := some "a_c" } [c6Row]).data.map
      fun t => t.title) = ["abc"] ∧
    substrCI "a_c" "abc" = false ∧
    c6Row.description = none ∧
    jsTrim "a_c" = "a_c" :=
  ⟨by decide, by decide, by rfl, by rfl⟩

def c6Db : List DbRow :=
  [(Todo.create ⟨"Buy milk", some "two bottles", none, none, none⟩
    "idc7" 0).toDatabase,
   (Todo.create ⟨"Write report", none, none, none, none⟩
    "idc8" 1).toDatabase]

/-- Witness for C6 on a concrete two-row collection and the search string
`milk`. -/
theorem c6_witness :
    (∀ r ∈ c6Db, TodoRepository.searchCond "milk" r = true →
      Todo.fromDatabase r ∈
        (TodoRepository.findAll
          { search := some "milk", page := some 1, limit := some 50 }
          c6Db).data) ∧
    (∀ t ∈ (TodoRepository.findAll
        { search := some "milk", page := some 1, limit := some 50 }
        c6Db).data,
      ∃ r ∈ c6Db, TodoRepository.searchCond "milk" r = true ∧
        t = Todo.fromDatabase r) ∧
    (noWild (jsTrim "milk").data = true → ∀ r : DbRow,
      TodoRepository.searchCond "milk" r =
        (substrCI (jsTrim "milk") r.title ||
          (match r.description with
           | some d => substrCI (jsTrim "milk") d
           | none => false))) :=
  c6_search_filter_semantics c6Db "milk" 50 (by decide) (by decide)

/-! ## Completion-rate theorems (C8) -/

/-- The base-2 integer logarithm is determined by its power bounds. -/
theorem intLog2_eq (q : ℚ) (e : ℤ) (hq : 0 < q) (h1 : (2:ℚ)^e ≤ q)
    (h2 : q < (2:ℚ)^(e+1)) : Int.log 2 q = e := by
  have hb : (1:ℕ) < 2 := by norm_num
  have l1 := Int.zpow_log_le_self (b := 2) hb hq
  have l2 := Int.lt_zpow_succ_log_self (b := 2) hb q
  have hc2 : ((2:ℕ):ℚ) = (2:ℚ) := by norm_num
  rw [hc2] at l1 l2
  by_contra hne
  rcases lt_or_gt_of_ne hne with h | h
  · have hh : (2:ℚ)^(Int.log 2 q + 1) ≤ (2:ℚ)^e :=
      (zpow_le_zpow_iff_right₀ (by norm_num : (1:ℚ) < 2)).mpr (by omega)
    have : q < q := lt_of_lt_of_le l2 (le_trans hh h1)
    exact absurd this (lt_irrefl q)
  · have hh : (2:ℚ)^(e + 1) ≤ (2:ℚ)^(Int.log 2 q) :=
      (zpow_le_zpow_iff_right₀ (by norm_num : (1:ℚ) < 2)).mpr (by omega)
    have : q < q := lt_of_lt_of_le h2 (le_trans hh l1)
    exact absurd this (lt_irrefl q)

theorem rhe_le (q : ℚ) : (rhe q : ℚ) ≤ q + 1/2 := by
  simp only [rhe]
  split_ifs <;> push_cast <;> linarith [Int.floor_le q]

theorem rhe_nonneg (q : ℚ) (h : 0 ≤ q) : 0 ≤ rhe q := by
  have h0 : 0 ≤ ⌊q⌋ := Int.floor_nonneg.mpr h
  simp only [rhe]
  split_ifs <;> omega

theorem fl_nonneg (q : ℚ) (h : 0 ≤ q) : 0 ≤ fl q := by
  simp only [fl]
  split_ifs with h0
  · exact h
  · push_neg at h0
    have hm : (0:ℚ) ≤ q * (2:ℚ)^((52:ℤ) - Int.log 2 q) := by positivity
    have h1 : (0:ℤ) ≤ rhe (q * (2:ℚ)^((52:ℤ) - Int.log 2 q)) :=
      rhe_nonneg _ hm
    have h2 : (0:ℚ) < (2:ℚ)^(Int.log 2 q - (52:ℤ)) :=
      zpow_pos (by norm_num) _
    exact mul_nonneg (by exact_mod_cast h1) h2.le

theorem fl_le (q : ℚ) (h : 0 ≤ q) :
    fl q ≤ q * (1 + (2:ℚ)^(-(53:ℤ))) := by
  simp only [fl]
  split_ifs with h0
  · have hq0 : q = 0 := le_antisymm h0 h
    rw [hq0]
    norm_num
  · push_neg at h0
    set e := Int.log 2 q with he
    have h2e : (2:ℚ)^e ≤ q := by
      have hl := Int.zpow_log_le_self (b := 2) (by norm_num : (1:ℕ) < 2) h0
      have hc2 : ((2:ℕ):ℚ) = (2:ℚ) := by norm_num
      rw [hc2] at hl
      exact hl
    have hrhe := rhe_le (q * (2:ℚ)^((52:ℤ) - e))
    have hp1 : (0:ℚ) < (2:ℚ)^(e - (52:ℤ)) := zpow_pos (by norm_num) _
    have step1 : (rhe (q * (2:ℚ)^((52:ℤ) - e)) : ℚ) * (2:ℚ)^(e - (52:ℤ)) ≤
        (q * (2:ℚ)^((52:ℤ) - e) + 1/2) * (2:ℚ)^(e - (52:ℤ)) :=
      mul_le_mul_of_nonneg_right hrhe hp1.le
    have hzz : (2:ℚ)^((52:ℤ) - e) * (2:ℚ)^(e - (52:ℤ)) = 1 := by
      rw [← zpow_add₀ (by norm_num : (2:ℚ) ≠ 0)]
      norm_num
    have hhalf : (1/2 : ℚ) * (2:ℚ)^(e - (52:ℤ)) = (2:ℚ)^(e - (53:ℤ)) := by
      have hh : (2:ℚ)^(e - (53:ℤ)) = (2:ℚ)^(-(1:ℤ)) * (2:ℚ)^(e - (52:ℤ)) := by
        rw [← zpow_add₀ (by norm_num : (2:ℚ) ≠ 0)]
        congr 1
        omega
      rw [hh]
      norm_num
    have hcollapse : (q * (2:ℚ)^((52:ℤ) - e) + 1/2) * (2:ℚ)^(e - (52:ℤ)) =
        q + (2:ℚ)^(e - (53:ℤ)) := by
      calc (q * (2:ℚ)^((52:ℤ) - e) + 1/2) * (2:ℚ)^(e - (52:ℤ))
          = q * ((2:ℚ)^((52:ℤ) - e) * (2:ℚ)^(e - (52:ℤ))) +
            (1/2) * (2:ℚ)^(e - (52:ℤ)) := by ring
        _ = q + (2:ℚ)^(e - (53:ℤ)) := by rw [hzz, hhalf]; ring
    have hlast : (2:ℚ)^(e - (53:ℤ)) ≤ q * (2:ℚ)^(-(53:ℤ)) := by
      have hsplit : (2:ℚ)^(e - (53:ℤ)) = (2:ℚ)^e * (2:ℚ)^(-(53:ℤ)) := by
        rw [← zpow_add₀ (by norm_num : (2:ℚ) ≠ 0)]
        congr 1
      rw [hsplit]
      exact mul_le_mul_of_nonneg_right h2e
        (zpow_pos (by norm_num : (0:ℚ) < 2) _).le
    calc (rhe (q * (2:ℚ)^((52:ℤ) - e)) : ℚ) * (2:ℚ)^(e - (52:ℤ))
        ≤ q + (2:ℚ)^(e - (53:ℤ)) := by rw [← hcollapse]; exact step1
      _ ≤ q + q * (2:ℚ)^(-(53:ℤ)) := by linarith
      _ = q * (1 + (2:ℚ)^(-(53:ℤ))) := by ring

theorem jsRound_nonneg (q : ℚ) (h : 0 ≤ q) : 0 ≤ jsRound q := by
  simp only [jsRound]
  exact Int.le_floor.mpr (by push_cast; linarith)

theorem jsRound_le_100 (q : ℚ) (h : q < 201/2) : jsRound q ≤ 100 := by
  simp only [jsRound]
  have hf := Int.floor_lt.mpr
    (show q + 1/2 < ((101:ℤ):ℚ) by push_cast; linarith)
  omega

theorem jsCompletionRate_range (c t : Nat) (h : c ≤ t) :
    0 ≤ jsCompletionRate c t ∧ jsCompletionRate c t ≤ 100 := by
  simp only [jsCompletionRate]
  split_ifs with ht
  · have hq1 : (0:ℚ) ≤ (c:ℚ)/(t:ℚ) := by positivity
    have hle1 : (c:ℚ)/(t:ℚ) ≤ 1 := by
      rw [div_le_one (by exact_mod_cast ht : (0:ℚ) < (t:ℚ))]
      exact_mod_cast h
    have hu : (0:ℚ) < (2:ℚ)^(-(53:ℤ)) := zpow_pos (by norm_num) _
    have hx1a := fl_nonneg _ hq1
    have hx1b := fl_le _ hq1
    have hq2 : (0:ℚ) ≤ fl ((c:ℚ)/(t:ℚ)) * 100 := by positivity
    have hx2a := jsRound_nonneg _ (fl_nonneg _ hq2)
    have hx2b := fl_le _ hq2
    refine ⟨hx2a, ?_⟩
    apply jsRound_le_100
    have hb1 : fl ((c:ℚ)/(t:ℚ)) ≤ 1 + (2:ℚ)^(-(53:ℤ)) := by nlinarith
    have hb2 : fl ((c:ℚ)/(t:ℚ)) * 100 * (1 + (2:ℚ)^(-(53:ℤ))) ≤
        100 * (1 + (2:ℚ)^(-(53:ℤ)))^2 := by nlinarith
    have hnum : (100:ℚ) * (1 + (2:ℚ)^(-(53:ℤ)))^2 < 201/2 := by norm_num
    linarith
  · exact ⟨le_refl 0, by norm_num⟩

/-- C8 (amended): `completionRate` is `Math.round` of the binary64
evaluation of `(completed / total) * 100` when `total > 0` and `0`
otherwise; it always lies in `[0, 100]`, and an empty collection yields 0.
It can differ from the exact half-up rounding of `100·completed/total`
when the floating computation lands just below a half-integer (see the
counterexample: 23 completed of 40 yields 57, not 58). -/
theorem c8_completionRate_range (db : List DbRow) (now : Nat) :
    0 ≤ (TodoRepository.getStats db now).completionRate ∧
    (TodoRepository.getStats db now).completionRate ≤ 100 ∧
    (TodoRepository.getStats ([] : List DbRow) now).completionRate = 0 := by
  have hle : TodoRepository.count .completed db ≤
      TodoRepository.count .all db := List.length_filter_le _ _
  have hb := jsCompletionRate_range _ _ hle
  exact ⟨hb.1, hb.2, rfl⟩

/-- Evaluation rule for `rhe` when the fraction is below one half. -/
theorem rhe_eval (q : ℚ) (n : ℤ) (h1 : (n:ℚ) ≤ q) (h2 : q < n + 1/2) :
    rhe q = n := by
  have hfl : ⌊q⌋ = n := by
    rw [Int.floor_eq_iff]
    exact ⟨h1, by push_cast; linarith⟩
  simp only [rhe, hfl]
  rw [if_pos (by push_cast; linarith)]

/-- Evaluation rule for `fl` from an exponent bracket and a rounded
mantissa. -/
theorem fl_eval (q : ℚ) (e : ℤ) (n : ℤ) (hq : 0 < q)
    (h1 : (2:ℚ)^e ≤ q) (h2 : q < (2:ℚ)^(e+1))
    (hn : rhe (q * (2:ℚ)^((52:ℤ) - e)) = n) :
    fl q = (n:ℚ) * (2:ℚ)^(e - (52:ℤ)) := by
  simp only [fl]
  rw [if_neg (not_le.mpr hq), intLog2_eq q e hq h1 h2, hn]

def c8Done : DbRow :=
  { id := "d", title := "Tache faite", description := none, completed := 1,
    priority := "medium", due_date := none, tags := [], created_at := 0,
    updated_at := 0, completed_at := some 0 }

def c8Active : DbRow :=
  { id := "a", title := "Tache en cours", description := none,
    completed := 0, priority := "medium", due_date := none, tags := [],
    created_at := 0, updated_at := 0, completed_at := none }

def c8Db : List DbRow :=
  List.replicate 23 c8Done ++ List.replicate 17 c8Active

/-- Counterexample for C8 as stated: with 23 of 40 tasks completed, the
exact value of `100·23/40` is 57.5, whose half-up rounding is 58, but the
binary64 evaluation of `(23/40)*100` is just below 57.5 and `Math.round`
returns 57, which is what `getStats` reports. -/
theorem c8_counterexample :
    (TodoRepository.getStats c8Db 0).completionRate = 57 ∧
    completionRateSpec 23 40 = 58 ∧
    TodoRepository.count .completed c8Db = 23 ∧
    TodoRepository.count .all c8Db = 40 := by
  refine ⟨?_, ?_, by decide, by decide⟩
  · show jsCompletionRate (TodoRepository.count .completed c8Db)
      (TodoRepository.count .all c8Db) = 57
    have hc : TodoRepository.count .completed c8Db = 23 := by decide
    have ha : TodoRepository.count .all c8Db = 40 := by decide
    rw [hc, ha]
    simp only [jsCompletionRate]
    rw [if_pos (by norm_num)]
    push_cast
    have hfl1 : fl ((23:ℚ)/40) = (5179139571476070:ℚ) * (2:ℚ)^(-(53:ℤ)) := by
      have hstep := fl_eval ((23:ℚ)/40) (-1) 5179139571476070
        (by norm_num) (by norm_num) (by norm_num)
        (rhe_eval _ _ (by norm_num) (by norm_num))
      have hexp : ((-1:ℤ) - 52) = -53 := by norm_num
      rw [hexp] at hstep
      exact hstep
    rw [hfl1]
    have hfl2 : fl ((5179139571476070:ℚ) * (2:ℚ)^(-(53:ℤ)) * 100) =
        (8092405580431359:ℚ) * (2:ℚ)^(-(47:ℤ)) := by
      have hstep := fl_eval ((5179139571476070:ℚ) * (2:ℚ)^(-(53:ℤ)) * 100)
        5 8092405580431359
        (by positivity) (by norm_num) (by norm_num)
        (rhe_eval _ _ (by norm_num) (by norm_num))
      have hexp : ((5:ℤ) - 52) = -47 := by norm_num
      rw [hexp] at hstep
      exact hstep
    rw [hfl2]
    simp only [jsRound]
    rw [Int.floor_eq_iff]
    constructor <;> norm_num
  · simp only [completionRateSpec]
    rw [if_pos (by norm_num)]
    rw [Int.floor_eq_iff]
    constructor <;> norm_num
